import Mathlib

/-!
Shallow embedding of the joint char/phoneme tokenizer utilities of this
repository (`espnet2/bin/char_phoneme_tokenize_text.py`,
`espnet2/text/char_phoneme_tokenizer.py`): the 1-based field-range parser
`field2slice`, line splitting/joining on a delimiter, the pre-phonemize
split of `CharPhonemeTokenizer.text2tokens`, and the vocabulary
ranking / truncation / symbol-splicing / OOV-rate logic of `tokenize`.

Python strings are modelled as `List Char`; Python `int` as `Int` with the
fallible conversion `int(...)` modelled as an `Option`-returning parser;
code that raises exceptions is modelled with `Except`.
-/

/-- Python strings are modelled as lists of characters. -/
abbrev Str := List Char

instance {ε α : Type} [DecidableEq ε] [DecidableEq α] : DecidableEq (Except ε α) := fun x y =>
  match x, y with
  | .ok a, .ok b =>
    if h : a = b then .isTrue (by rw [h]) else .isFalse (by intro hh; cases hh; exact h rfl)
  | .error a, .error b =>
    if h : a = b then .isTrue (by rw [h]) else .isFalse (by intro hh; cases hh; exact h rfl)
  | .ok _, .error _ => .isFalse (by intro hh; cases hh)
  | .error _, .ok _ => .isFalse (by intro hh; cases hh)

/-- ASCII whitespace as recognized by Python `str.strip()` / `str.split()`
with no argument: space (32), tab (9), LF (10), VT (11), FF (12), CR (13).
Exotic Unicode whitespace is not modelled. -/
def isPySpace (c : Char) : Bool :=
  c.toNat = 32 || (9 ≤ c.toNat && c.toNat ≤ 13)

/-- Python `str.strip()`: remove whitespace from both ends. -/
def pyStrip (s : Str) : Str :=
  ((s.dropWhile isPySpace).reverse.dropWhile isPySpace).reverse

/-- Value of a decimal digit string: all characters must be digits and the
string nonempty, as required by Python `int()` after sign handling. -/
def parseDigits (s : Str) : Option Nat :=
  if s = [] then none
  else if s.all Char.isDigit then
    some (s.foldl (fun a c => 10 * a + (c.toNat - 48)) 0)
  else none

/-- Python `int(str)`: strips whitespace, accepts one optional leading
sign, then a nonempty run of decimal digits.  (Underscore digit grouping
and non-ASCII digits, which CPython also accepts, are not modelled; no
input in this development uses them.) -/
def pyInt? (s : Str) : Option Int :=
  match pyStrip s with
  | [] => none
  | c :: rest =>
    if c = '-' then (parseDigits rest).map (fun n => -(n : Int))
    else if c = '+' then (parseDigits rest).map (fun n => (n : Int))
    else (parseDigits (c :: rest)).map (fun n => (n : Int))

/-- The standard decimal representation of `n`, most significant digit
first. -/
def natToChars (n : Nat) : Str :=
  (Nat.digits 10 n).reverse.map (fun d => Char.ofNat (48 + d))

/-- Split at the first occurrence of `c`: Python `s.split(c, maxsplit=1)`
restricted to the case `c ∈ s` (the only case `field2slice` exercises,
guarded by `"-" in field`), returning the parts before and after `c`. -/
def splitFirst (c : Char) : Str → Str × Str
  | [] => ([], [])
  | x :: xs =>
    if x = c then ([], xs)
    else
      let r := splitFirst c xs
      (x :: r.1, r.2)

/-- A Python `slice(start, stop)` with step 1, as produced by
`field2slice`; `none` stands for Python `None`. -/
structure PySlice where
  start : Option Int
  stop : Option Int
deriving DecidableEq, Repr

/-- The message of the `RuntimeError` raised by `field2slice`
(`char_phoneme_tokenize_text.py` line 52); it echoes the example formats
and the (stripped) offending field string. -/
def fmtErrMsg (f : Str) : Str :=
  "Format error: e.g. '2-', '2-5', or '-5': ".data ++ f

/-- `field2slice` of `char_phoneme_tokenize_text.py` (lines 18-60):
converts a 1-based field string into a slice.  If the field contains a
dash it is split at the first dash; an empty part means an open bound,
the part before the dash must parse to a nonzero integer (0 is rejected
as "1-based"), the part after the dash to any integer.  Without a dash
the whole field must parse to a nonzero integer `s1`, and `s2` is set to
`s1 + 1`; the result is `slice(s1 - 1, s2)` (or `slice(None, s2)` when
the start is open).  Any `ValueError` becomes the single format error. -/
def field2slice (field : Str) : Except Str PySlice :=
  let f := pyStrip field
  if '-' ∈ f then
    let s12 := splitFirst '-' f
    let os1 : Except Unit (Option Int) :=
      if pyStrip s12.1 = [] then .ok none
      else
        match pyInt? s12.1 with
        | none => .error ()
        | some v => if v = 0 then .error () else .ok (some v)
    let os2 : Except Unit (Option Int) :=
      if pyStrip s12.2 = [] then .ok none
      else
        match pyInt? s12.2 with
        | none => .error ()
        | some v => .ok (some v)
    match os1, os2 with
    | .ok none, .ok s2 => .ok ⟨none, s2⟩
    | .ok (some v), .ok s2 => .ok ⟨some (v - 1), s2⟩
    | _, _ => .error (fmtErrMsg f)
  else
    match pyInt? f with
    | none => .error (fmtErrMsg f)
    | some v =>
      if v = 0 then .error (fmtErrMsg f)
      else .ok ⟨some (v - 1), some (v + 1)⟩

/-- Python list slicing `xs[sl]` for a step-1 slice: bounds are clamped to
`[0, len]`, negative bounds count from the end. -/
def pySliceList (sl : PySlice) (xs : List α) : List α :=
  let n := xs.length
  let lo : Nat :=
    match sl.start with
    | none => 0
    | some i => if i < 0 then ((n : Int) + i).toNat else min i.toNat n
  let hi : Nat :=
    match sl.stop with
    | none => n
    | some i => if i < 0 then ((n : Int) + i).toNat else min i.toNat n
  (xs.take hi).drop lo

/-- Python `str.split()` with no separator: split on runs of whitespace,
discarding empty fields (so leading/trailing whitespace yields nothing
and the empty string yields `[]`). -/
def splitWs (s : Str) : List Str :=
  (s.splitOnP isPySpace).filter (fun w => w ≠ [])

/-- `line.split(delimiter)` as used in `tokenize`
(`char_phoneme_tokenize_text.py` line 128): `none` is Python `None`
(whitespace-run splitting); a concrete delimiter splits at every
occurrence keeping empty fields.  The delimiter is modelled as a single
character (Python allows longer separator strings; every delimiter used
in this development is one character). -/
def pySplit (d : Option Char) (s : Str) : List Str :=
  match d with
  | none => splitWs s
  | some c => s.splitOn c

/-- Rejoining sliced fields (`char_phoneme_tokenize_text.py` lines
130-133): `" ".join(tokens)` when the delimiter is `None`, else
`delimiter.join(tokens)`. -/
def pyJoin (d : Option Char) (ws : List Str) : Str :=
  match d with
  | none => List.intercalate [' '] ws
  | some c => List.intercalate [c] ws

/-- The pre-phonemize splitting step of `CharPhonemeTokenizer.text2tokens`
(`char_phoneme_tokenizer.py` line 70):
`text_line, phone_line = line.split("@") if self.pre_phonemize else (line, line)`.
Note that the split is on the literal character `@` at every occurrence
(the configured `joint_symbol` field is not consulted and there is no
`maxsplit`); unpacking the resulting list into two variables raises
`ValueError` unless the split yields exactly two parts. -/
def text2tokensSplit (pre_phonemize : Bool) (joint_symbol : Str) (line : Str) :
    Except String (Str × Str) :=
  if pre_phonemize then
    match line.splitOn '@' with
    | [t, p] => .ok (t, p)
    | _ => .error "ValueError: unpack"
  else
    .ok (line, line)

/-- A vocabulary entry `(symbol, count)`; `none` marks an injected symbol
(Python stores `(symbol, None)`). -/
abbrev Entry := Str × Option Nat

/-- Stable insertion of `x` into a list sorted by descending count: `x`
goes after every element whose count is at least `x`'s (so equal counts
keep their original relative order, as Python's stable `sorted` does). -/
def insertCountDesc (x : Str × Nat) : List (Str × Nat) → List (Str × Nat)
  | [] => [x]
  | y :: ys => if y.2 < x.2 then x :: y :: ys else y :: insertCountDesc x ys

/-- `sorted(counter.items(), key=lambda x: -x[1])`: stable sort of the
counted items by descending count (`char_phoneme_tokenize_text.py`
line 153). -/
def pySortCountDesc (l : List (Str × Nat)) : List (Str × Nat) :=
  l.foldl (fun acc x => insertCountDesc x acc) []

/-- Ranking step of `tokenize` (lines 152-157): sort by descending count,
then keep only the entries whose count strictly exceeds `cutoff`
(`filter(lambda x: x[1] > cutoff, ...)`). -/
def rankVocab (counter : List (Str × Nat)) (cutoff : Int) : List (Str × Nat) :=
  (pySortCountDesc counter).filter (fun x => cutoff < (x.2 : Int))

/-- Size-cap step of `tokenize` (lines 158-174) for one stream: when
`vocab_size > 0`, fail if `vocab_size < len(add_symbol)`, else truncate
to the first `vocab_size - len(add_symbol)` entries.  Note the bound
counts only `add_symbol`, not `add_nonsplit_symbol`. -/
def capVocab (vocab_size : Int) (numAddSymbol : Nat) (words : List (Str × Nat)) :
    Except String (List (Str × Nat)) :=
  if 0 < vocab_size then
    if vocab_size < (numAddSymbol : Int) then
      .error "vocabulary_size is too small"
    else
      .ok (words.take (vocab_size - numAddSymbol).toNat)
  else
    .ok words

/-- Python `list.insert(i, x)`: a negative index counts from the end and
is clamped at 0; an index past the end appends. -/
def pyInsert (l : List α) (i : Int) (x : α) : List α :=
  let pos : Nat := if i < 0 then ((l.length : Int) + i).toNat else min i.toNat l.length
  l.take pos ++ x :: l.drop pos

/-- One splice of an injected symbol (`char_phoneme_tokenize_text.py`
lines 186-194): a negative index `idx` is first resolved to
`len(list) + 1 + idx`, then the entry `(symbol, None)` is inserted. -/
def spliceStep (l : List Entry) (symbol : Str) (idx : Int) : List Entry :=
  pyInsert l (if idx < 0 then (l.length : Int) + 1 + idx else idx) (symbol, none)

/-- Sequential splice of all injected symbols, in the caller-provided
order, each step acting on the current (possibly already-spliced) list. -/
def spliceAll (l : List Entry) (injections : List (Str × Int)) : List Entry :=
  injections.foldl (fun acc si => spliceStep acc si.1 si.2) l

/-- Parsing one `--add_symbol` / `--add_nonsplit_symbol` value
(`char_phoneme_tokenize_text.py` lines 177-184): `symbol_and_id.split(":")`
must yield exactly two parts (else the unpack raises `ValueError`), the
second part must parse as an integer, and the symbol is stripped. -/
def parseAddSymbol (symbol_and_id : Str) : Except Str (Str × Int) :=
  match symbol_and_id.splitOn ':' with
  | [s, i] =>
    match pyInt? i with
    | some idx => .ok (pyStrip s, idx)
    | none => .error ("Format error: e.g. '<blank>:0': ".data ++ symbol_and_id)
  | _ => .error ("Format error: e.g. '<blank>:0': ".data ++ symbol_and_id)

/-- Parse a list of symbol specs left to right, failing on the first bad
one. -/
def parseAddSymbols (specs : List Str) : Except Str (List (Str × Int)) :=
  match specs with
  | [] => .ok []
  | s :: rest => do
    let p ← parseAddSymbol s
    let ps ← parseAddSymbols rest
    return p :: ps

/-- Full vocabulary finalization for one stream (`tokenize`, lines
150-194): rank and cutoff-filter the counter, apply the size cap (which
checks only `add_symbol`), then splice in `add_symbol ++
add_nonsplit_symbol` sequentially. -/
def finalizeVocab (counter : List (Str × Nat)) (cutoff : Int) (vocab_size : Int)
    (add_symbol add_nonsplit_symbol : List (Str × Int)) : Except String (List Entry) :=
  (capVocab vocab_size add_symbol.length (rankVocab counter cutoff)).map
    (fun ws => spliceAll (ws.map (fun wc => (wc.1, some wc.2))) (add_symbol ++ add_nonsplit_symbol))

/-- Total number of token occurrences of one stream:
`sum(counter.values())` (line 203). -/
def totalCount (counter : List (Str × Nat)) : Nat :=
  (counter.map Prod.snd).sum

/-- Occurrences covered by the final vocabulary:
`sum(c for w, c in words_and_counts if c is not None)` (line 204) — the
injected entries carry `None` and contribute nothing. -/
def invocabCount (vocab : List Entry) : Nat :=
  (vocab.filterMap Prod.snd).sum

/-- Python division, which raises `ZeroDivisionError` on a zero
denominator. -/
def pyDiv (a b : ℚ) : Except String ℚ :=
  if b = 0 then .error "ZeroDivisionError" else .ok (a / b)

/-- The OOV percentage logged per stream (lines 202-214):
`(total_count - invocab_count) / total_count * 100`.  The division has no
guard for `total_count == 0`. -/
def oovRatePercent (counter : List (Str × Nat)) (vocab : List Entry) : Except String ℚ :=
  (pyDiv ((totalCount counter : ℚ) - (invocabCount vocab : ℚ)) (totalCount counter)).map
    (fun r => r * 100)

/-! ### General lemmas about splitting -/

/-- No element of a chunk produced by `splitOnP p` satisfies `p`. -/
theorem mem_splitOnP_false {α : Type} {p : α → Bool} :
    ∀ (l w : List α), w ∈ l.splitOnP p → ∀ c ∈ w, p c = false := by
  intro l
  induction l with
  | nil =>
    intro w hw c hc
    simp only [List.splitOnP_nil, List.mem_singleton] at hw
    subst hw
    simp at hc
  | cons a as ih =>
    intro w hw c hc
    rw [List.splitOnP_cons] at hw
    by_cases h : p a
    · rw [if_pos h] at hw
      rcases List.mem_cons.mp hw with rfl | hw'
      · simp at hc
      · exact ih w hw' c hc
    · rw [if_neg h] at hw
      rcases hsp : as.splitOnP p with _ | ⟨hd, tl⟩
      · exact absurd hsp (List.splitOnP_ne_nil p as)
      · rw [hsp] at hw
        simp only [List.modifyHead] at hw
        rcases List.mem_cons.mp hw with rfl | hw'
        · rcases List.mem_cons.mp hc with rfl | hc'
          · exact Bool.eq_false_iff.mpr h
          · exact ih hd (by rw [hsp]; exact List.mem_cons_self _ _) c hc'
        · exact ih w (by rw [hsp]; exact List.mem_cons_of_mem _ hw') c hc

/-- Splitting a list with exactly one occurrence of the separator yields
exactly the two surrounding parts. -/
theorem splitOn_eq_pair {c : Char} {l1 l2 : Str} (h1 : c ∉ l1) (h2 : c ∉ l2) :
    (l1 ++ c :: l2).splitOn c = [l1, l2] := by
  unfold List.splitOn
  rw [List.splitOnP_first _ l1 (fun x hx => by simp [ne_of_mem_of_not_mem hx h1]) c
    (by simp) l2]
  rw [List.splitOnP_eq_single _ _ (fun x hx => by simp [ne_of_mem_of_not_mem hx h2])]

/-- Splitting a list with no occurrence of the separator yields one part. -/
theorem splitOn_eq_single {c : Char} {l : Str} (h : c ∉ l) :
    l.splitOn c = [l] := by
  unfold List.splitOn
  exact List.splitOnP_eq_single _ _ (fun x hx => by simp [ne_of_mem_of_not_mem hx h])

/-- Splitting a list with at least two occurrences of the separator yields
at least three parts. -/
theorem splitOn_two_seps {c : Char} {l1 l2 l3 : Str} (h1 : c ∉ l1) (h2 : c ∉ l2) :
    (l1 ++ c :: (l2 ++ c :: l3)).splitOn c =
      l1 :: l2 :: l3.splitOn c := by
  unfold List.splitOn
  rw [List.splitOnP_first _ l1 (fun x hx => by simp [ne_of_mem_of_not_mem hx h1]) c (by simp),
    List.splitOnP_first _ l2 (fun x hx => by simp [ne_of_mem_of_not_mem hx h2]) c (by simp)]

example : field2slice "1-".data = .ok ⟨some 0, none⟩ := by decide
example : field2slice "1-3".data = .ok ⟨some 0, some 3⟩ := by decide
example : field2slice "-3".data = .ok ⟨none, some 3⟩ := by decide
example : field2slice "2".data = .ok ⟨some 1, some 3⟩ := by decide
example : field2slice "0".data = .error (fmtErrMsg "0".data) := by decide
example : field2slice "1--2".data = .ok ⟨some 0, some (-2)⟩ := by decide
example : pySliceList ⟨some 1, some 3⟩ ["a", "b", "c", "d"] = ["b", "c"] := by decide
example : text2tokensSplit true "@".data "a@b".data = .ok ("a".data, "b".data) := by decide
example : text2tokensSplit true "@".data "a@b@c".data = .error "ValueError: unpack" := by decide
example : text2tokensSplit true "#".data "a#b".data = .error "ValueError: unpack" := by decide
example : rankVocab [("a".data, 1), ("b".data, 3), ("c".data, 2)] 1 =
    [("b".data, 3), ("c".data, 2)] := by decide
example : finalizeVocab [("a".data, 1)] 0 1 [] [("s".data, 0), ("t".data, 1)] =
    .ok [("s".data, none), ("t".data, none), ("a".data, some 1)] := by decide
example : spliceAll [("a".data, some 3)] [("b".data, 0), ("u".data, -1)] =
    [("b".data, none), ("a".data, some 3), ("u".data, none)] := by decide
example : oovRatePercent [("a".data, 5), ("b".data, 3), ("c".data, 2)]
    [("a".data, some 5), ("b".data, some 3)] = .ok 20 := by
  norm_num [oovRatePercent, totalCount, invocabCount, pyDiv, Except.map,
    List.filterMap_cons, List.filterMap_nil]
example : oovRatePercent [] [] = .error "ZeroDivisionError" := by
  norm_num [oovRatePercent, totalCount, invocabCount, pyDiv, Except.map,
    List.filterMap_cons, List.filterMap_nil]
example : pySplit (some ',') "a,,b".data = ["a".data, [], "b".data] := by decide
example : pySplit none "  a  b ".data = ["a".data, "b".data] := by decide
example : pySplit (some ',') (pyJoin (some ',') []) = [[]] := by decide
example : parseAddSymbol "<blank>:0".data = .ok ("<blank>".data, 0) := by decide

/-! ### Claim C2: single-integer field -/

/-- Claim C2 (code bug): the spec says a plain field string `"N"` selects
exactly the single 1-based column `N`, i.e. `slice(N-1, N)`.  The code
(`char_phoneme_tokenize_text.py` lines 45-48 and 59) sets `s2 = s1 + 1`
and returns `slice(s1 - 1, s2)`, so `field2slice("2")` evaluates to
`slice(1, 3)`, which selects the two columns 2 and 3: on the field list
`["u1", "hello", "world", "x"]` it keeps `["hello", "world"]`, not
`["hello"]`. -/
theorem claim2_single_field_bug :
    field2slice "2".data = .ok ⟨some 1, some 3⟩ ∧
    pySliceList ⟨some 1, some 3⟩ ["u1", "hello", "world", "x"] = ["hello", "world"] := by
  decide

/-! ### Claim C6: rejected field strings -/

/-- Claim C6 (counterexample): the claim states that every string not of
the four accepted shapes is rejected, but `field2slice` accepts
`"1--2"` — the part after the first dash is `"-2"`, which Python
`int()` parses as the negative integer `-2` — yielding `slice(0, -2)`
instead of a format error. -/
theorem claim6_counterexample :
    field2slice "1--2".data = .ok ⟨some 0, some (-2)⟩ := by decide

/-- Claim C6 (amended): `field2slice` rejects `"0-"`, `"0"`, `"abc"` and
`"1-2-3"`, in each case with the error message that echoes the example
valid formats followed by the offending (stripped) field string; however
not every string outside the four documented shapes is rejected — a
second dash directly after the separator can parse as a negative stop
bound (see the counterexample `"1--2"`). -/
theorem claim6_rejections :
    field2slice "0-".data = .error (fmtErrMsg "0-".data) ∧
    field2slice "0".data = .error (fmtErrMsg "0".data) ∧
    field2slice "abc".data = .error (fmtErrMsg "abc".data) ∧
    field2slice "1-2-3".data = .error (fmtErrMsg "1-2-3".data) ∧
    fmtErrMsg "1-2-3".data = "Format error: e.g. '2-', '2-5', or '-5': 1-2-3".data := by
  decide

/-! ### Claim C3: pre-phonemize splitting -/

/-- Claim C3 (counterexample): the claim states that in pre-phonemized
mode the line is split on the *first* occurrence of the *configured*
joint symbol into exactly two parts.  The code splits on the literal
`"@"` with no `maxsplit` (`char_phoneme_tokenizer.py` line 70): with
joint symbol `"#"` the line `"a#b"` would have to split into
`("a", "b")`, and with the default `"@"` the line `"a@b@c"` would have
to split into `("a", "b@c")`; both instead raise the unpack error. -/
theorem claim3_counterexample :
    text2tokensSplit true "#".data "a#b".data = .error "ValueError: unpack" ∧
    text2tokensSplit true "@".data "a@b@c".data = .error "ValueError: unpack" := by
  decide

/-- Claim C3 (amended): in pre-phonemized mode `text2tokens` splits the
line on every occurrence of the literal character `@` (whatever joint
symbol is configured) and succeeds exactly when `@` occurs exactly once,
yielding the parts before and after it; it fails with the unpack error
both when `@` is absent and when it occurs more than once. -/
theorem claim3_split_spec :
    (∀ (js l1 l2 : Str), '@' ∉ l1 → '@' ∉ l2 →
      text2tokensSplit true js (l1 ++ '@' :: l2) = .ok (l1, l2)) ∧
    (∀ (js l : Str), '@' ∉ l →
      text2tokensSplit true js l = .error "ValueError: unpack") ∧
    (∀ (js l1 l2 l3 : Str), '@' ∉ l1 → '@' ∉ l2 →
      text2tokensSplit true js (l1 ++ '@' :: (l2 ++ '@' :: l3)) =
        .error "ValueError: unpack") := by
  refine ⟨?_, ?_, ?_⟩
  · intro js l1 l2 h1 h2
    simp only [text2tokensSplit, if_pos]
    rw [splitOn_eq_pair h1 h2]
  · intro js l h
    simp only [text2tokensSplit, if_pos]
    rw [splitOn_eq_single h]
  · intro js l1 l2 l3 h1 h2
    simp only [text2tokensSplit, if_pos]
    rw [splitOn_two_seps h1 h2]
    rcases hsp : l3.splitOn '@' with _ | ⟨hd, tl⟩
    · exact absurd hsp (by unfold List.splitOn; exact List.splitOnP_ne_nil _ l3)
    · rfl

/-- Witness for the amended claim C3 at concrete inputs: splitting
`"a@b"` succeeds with parts `("a", "b")`, and `"ab"` (no `@`) fails. -/
theorem claim3_split_spec_witness :
    text2tokensSplit true "@".data "a@b".data = .ok ("a".data, "b".data) ∧
    text2tokensSplit true "@".data "ab".data = .error "ValueError: unpack" :=
  ⟨claim3_split_spec.1 "@".data "a".data "b".data (by decide) (by decide),
   claim3_split_spec.2.1 "@".data "ab".data (by decide)⟩

/-! ### Sorting lemmas for the vocabulary ranking -/

/-- Stable descending insertion produces a permutation of consing. -/
theorem insertCountDesc_perm (x : Str × Nat) :
    ∀ (l : List (Str × Nat)), List.Perm (insertCountDesc x l) (x :: l) := by
  intro l
  induction l with
  | nil => simp [insertCountDesc]
  | cons y ys ih =>
    by_cases h : y.2 < x.2
    · simp [insertCountDesc, h]
    · simpa [insertCountDesc, h] using ((ih.cons y).trans (List.Perm.swap x y ys))

/-- Stable descending insertion preserves descending sortedness. -/
theorem insertCountDesc_sorted (x : Str × Nat) :
    ∀ (l : List (Str × Nat)), l.Pairwise (fun a b => b.2 ≤ a.2) →
      (insertCountDesc x l).Pairwise (fun a b => b.2 ≤ a.2) := by
  intro l
  induction l with
  | nil => intro _; simp [insertCountDesc]
  | cons y ys ih =>
    intro hs
    rw [List.pairwise_cons] at hs
    by_cases h : y.2 < x.2
    · rw [insertCountDesc, if_pos h, List.pairwise_cons]
      refine ⟨?_, List.pairwise_cons.mpr hs⟩
      intro z hz
      rcases List.mem_cons.mp hz with rfl | hz'
      · exact Nat.le_of_lt h
      · exact le_trans (hs.1 z hz') (Nat.le_of_lt h)
    · rw [insertCountDesc, if_neg h, List.pairwise_cons]
      refine ⟨?_, ih hs.2⟩
      intro z hz
      have := (insertCountDesc_perm x ys).mem_iff.mp hz
      rcases List.mem_cons.mp this with rfl | hz'
      · exact Nat.le_of_not_lt h
      · exact hs.1 z hz'

/-- The stable sort is a permutation of its input. -/
theorem pySortCountDesc_perm (l : List (Str × Nat)) : List.Perm (pySortCountDesc l) l := by
  suffices h : ∀ (l acc : List (Str × Nat)),
      List.Perm (l.foldl (fun acc x => insertCountDesc x acc) acc) (l ++ acc) by
    simpa using h l []
  intro l
  induction l with
  | nil => intro acc; simp
  | cons a as ih =>
    intro acc
    have h1 : List.Perm (as.foldl (fun acc x => insertCountDesc x acc) (insertCountDesc a acc))
        (as ++ insertCountDesc a acc) := ih _
    refine h1.trans ?_
    have h2 : List.Perm (as ++ insertCountDesc a acc) (as ++ a :: acc) :=
      (insertCountDesc_perm a acc).append_left as
    exact h2.trans List.perm_middle

/-- The stable sort output is sorted by descending count. -/
theorem pySortCountDesc_sorted (l : List (Str × Nat)) :
    (pySortCountDesc l).Pairwise (fun a b => b.2 ≤ a.2) := by
  suffices h : ∀ (l acc : List (Str × Nat)), acc.Pairwise (fun a b => b.2 ≤ a.2) →
      (l.foldl (fun acc x => insertCountDesc x acc) acc).Pairwise (fun a b => b.2 ≤ a.2) by
    exact h l [] (by simp)
  intro l
  induction l with
  | nil => intro acc h; simpa using h
  | cons a as ih =>
    intro acc h
    exact ih _ (insertCountDesc_sorted a acc h)

/-! ### Claim C5: ranking with cutoff -/

/-- Claim C5 (confirmed): the ranked list is sorted by occurrence count
in descending order, and before any size cap a counted token is retained
exactly when its count strictly exceeds `cutoff` (so count = cutoff is
dropped, count = cutoff + 1 is kept); as a multiset the ranked list is
exactly the cutoff-filtered counter. -/
theorem claim5_rank_cutoff (counter : List (Str × Nat)) (cutoff : Int) :
    (∀ (w : Str) (c : Nat),
      ((w, c) ∈ rankVocab counter cutoff ↔ (w, c) ∈ counter ∧ cutoff < (c : Int))) ∧
    (rankVocab counter cutoff).Pairwise (fun a b => b.2 ≤ a.2) ∧
    List.Perm (rankVocab counter cutoff) (counter.filter (fun x => cutoff < (x.2 : Int))) := by
  refine ⟨?_, ?_, ?_⟩
  · intro w c
    rw [rankVocab, List.mem_filter]
    rw [(pySortCountDesc_perm counter).mem_iff]
    simp
  · exact List.Pairwise.filter _ (pySortCountDesc_sorted counter)
  · exact (pySortCountDesc_perm counter).filter _

/-! ### Claim C1: symbol injection splicing -/

/-- Claim C1 (confirmed): each injection is a sequential splice on the
current list — a non-negative in-range index `idx` inserts the entry
`(symbol, None)` before position `idx` of the possibly already-spliced
list; a negative index `k` (with the resolved position in range) inserts
at position `len(list) + 1 + k`, so `-1` appends as the last element; and
injecting the parsed specs `"<blank>:0"` then `"<unk>:-1"` into a counted
list `[a, b, c]` yields exactly
`[<blank>, a, b, c, <unk>]`. -/
theorem claim1_injection_splice :
    (∀ (l : List Entry) (sym : Str) (idx : Int), 0 ≤ idx → idx ≤ l.length →
      spliceStep l sym idx = l.take idx.toNat ++ (sym, none) :: l.drop idx.toNat) ∧
    (∀ (l : List Entry) (sym : Str) (k : Int), k < 0 → 0 ≤ (l.length : Int) + 1 + k →
      spliceStep l sym k =
        l.take ((l.length : Int) + 1 + k).toNat ++
          (sym, none) :: l.drop ((l.length : Int) + 1 + k).toNat) ∧
    (∀ (l : List Entry) (sym : Str), spliceStep l sym (-1) = l ++ [(sym, none)]) ∧
    (parseAddSymbols ["<blank>:0".data, "<unk>:-1".data] =
      .ok [("<blank>".data, 0), ("<unk>".data, -1)]) ∧
    (∀ a b c : Entry,
      spliceAll [a, b, c] [("<blank>".data, 0), ("<unk>".data, -1)] =
        [("<blank>".data, none), a, b, c, ("<unk>".data, none)]) := by
  have hstep : ∀ (l : List Entry) (sym : Str) (idx : Int), 0 ≤ idx → idx ≤ l.length →
      spliceStep l sym idx = l.take idx.toNat ++ (sym, none) :: l.drop idx.toNat := by
    intro l sym idx h0 hle
    rw [spliceStep, if_neg (by omega), pyInsert]
    simp only [if_neg (show ¬idx < 0 by omega)]
    have : min idx.toNat l.length = idx.toNat := by omega
    rw [this]
  have hneg : ∀ (l : List Entry) (sym : Str) (k : Int), k < 0 → 0 ≤ (l.length : Int) + 1 + k →
      spliceStep l sym k =
        l.take ((l.length : Int) + 1 + k).toNat ++
          (sym, none) :: l.drop ((l.length : Int) + 1 + k).toNat := by
    intro l sym k hk h0
    rw [spliceStep, if_pos hk, pyInsert, if_neg (by omega)]
    have : min ((l.length : Int) + 1 + k).toNat l.length = ((l.length : Int) + 1 + k).toNat := by
      omega
    rw [this]
  have happend : ∀ (l : List Entry) (sym : Str), spliceStep l sym (-1) = l ++ [(sym, none)] := by
    intro l sym
    rw [hneg l sym (-1) (by omega) (by omega)]
    have h1 : ((l.length : Int) + 1 + (-1)).toNat = l.length := by omega
    rw [h1, List.take_length, List.drop_length]
  refine ⟨hstep, hneg, happend, by decide, ?_⟩
  intro a b c
  rw [spliceAll, List.foldl_cons, List.foldl_cons, List.foldl_nil]
  rw [hstep [a, b, c] "<blank>".data 0 (by omega) (by simp)]
  simp only [Int.toNat_zero, List.take_zero, List.drop_zero, List.nil_append]
  rw [happend]
  rfl

/-- Witness for claim C1's quantified parts at concrete inputs. -/
theorem claim1_injection_splice_witness :
    spliceStep [(['x'], some 1), (['y'], some 2)] ['s'] 1 =
      [(['x'], some 1), (['s'], none), (['y'], some 2)] ∧
    spliceStep [(['x'], some 1)] ['s'] (-1) = [(['x'], some 1), (['s'], none)] := by
  constructor
  · have h := claim1_injection_splice.1 [(['x'], some 1), (['y'], some 2)] ['s'] 1
      (by omega) (by simp)
    simpa using h
  · exact claim1_injection_splice.2.2.1 [(['x'], some 1)] ['s']

/-! ### Length lemmas for splicing -/

/-- `list.insert` always adds exactly one element, wherever the (possibly
clamped) index lands. -/
theorem pyInsert_length (l : List α) (i : Int) (x : α) :
    (pyInsert l i x).length = l.length + 1 := by
  rw [pyInsert]
  split
  · simp only [List.length_append, List.length_take, List.length_cons, List.length_drop]
    omega
  · simp only [List.length_append, List.length_take, List.length_cons, List.length_drop]
    omega

/-- Splicing adds exactly one entry per injection. -/
theorem spliceAll_length (inj : List (Str × Int)) :
    ∀ (l : List Entry), (spliceAll l inj).length = l.length + inj.length := by
  induction inj with
  | nil => intro l; simp [spliceAll]
  | cons si rest ih =>
    intro l
    rw [spliceAll, List.foldl_cons]
    have := ih (spliceStep l si.1 si.2)
    rw [spliceAll] at this
    rw [this, spliceStep, pyInsert_length]
    simp only [List.length_cons]
    omega

/-! ### Claim C4: vocabulary size cap -/

/-- Claim C4 (counterexample): with `max_size = 1` and two injected
symbols, both given via `add_nonsplit_symbol`, the claim demands a
ConfigError (`1 < 2`) and a final vocabulary of at most 1 entry; the code
instead succeeds — the size check and the truncation count only
`add_symbol` — and produces 3 entries. -/
theorem claim4_counterexample :
    finalizeVocab [("a".data, 1)] 0 1 [] [("s".data, 0), ("t".data, 1)] =
      .ok [("s".data, none), ("t".data, none), ("a".data, some 1)] := by
  decide

/-- Claim C4 (amended): for `max_size > 0` the size check and the
truncation count only the `add_symbol` injections, not the
`add_nonsplit_symbol` ones: finalization fails (with the
too-small-vocabulary error, the spec's ConfigError) iff
`max_size < len(add_symbol)`; otherwise the ranked list is truncated to
`max_size - len(add_symbol)` entries before splicing, and the final
vocabulary has at most `max_size + len(add_nonsplit_symbol)` entries —
so at most `max_size` entries exactly when no nonsplit symbols are
injected (`max_size = len(add_symbol)` is valid and leaves zero counted
entries). -/
theorem claim4_size_cap (counter : List (Str × Nat)) (cutoff : Int) (vsize : Int)
    (as ans : List (Str × Int)) (hv : 0 < vsize) :
    ((finalizeVocab counter cutoff vsize as ans = .error "vocabulary_size is too small") ↔
      vsize < (as.length : Int)) ∧
    ((as.length : Int) ≤ vsize →
      finalizeVocab counter cutoff vsize as ans =
        .ok (spliceAll
          (((rankVocab counter cutoff).take ((vsize - as.length).toNat)).map
            (fun wc => (wc.1, some wc.2)))
          (as ++ ans))) ∧
    (∀ v, finalizeVocab counter cutoff vsize as ans = .ok v →
      v.length ≤ vsize.toNat + ans.length) ∧
    (ans = [] → ∀ v, finalizeVocab counter cutoff vsize as ans = .ok v →
      v.length ≤ vsize.toNat) := by
  by_cases hlt : vsize < (as.length : Int)
  · have herr : finalizeVocab counter cutoff vsize as ans =
        .error "vocabulary_size is too small" := by
      rw [finalizeVocab, capVocab, if_pos hv, if_pos hlt]
      rfl
    refine ⟨⟨fun _ => hlt, fun _ => herr⟩, fun hle => absurd hle (by omega), ?_, ?_⟩
    · intro v hv'
      rw [herr] at hv'
      cases hv'
    · intro _ v hv'
      rw [herr] at hv'
      cases hv'
  · have hok : finalizeVocab counter cutoff vsize as ans =
        .ok (spliceAll
          (((rankVocab counter cutoff).take ((vsize - as.length).toNat)).map
            (fun wc => (wc.1, some wc.2)))
          (as ++ ans)) := by
      rw [finalizeVocab, capVocab, if_pos hv, if_neg hlt]
      rfl
    refine ⟨⟨fun h => ?_, fun h => absurd h hlt⟩, fun _ => hok, ?_, ?_⟩
    · rw [hok] at h
      cases h
    · intro v hv'
      rw [hok] at hv'
      cases hv'
      rw [spliceAll_length, List.length_map, List.length_take, List.length_append]
      omega
    · intro hans v hv'
      rw [hok] at hv'
      cases hv'
      rw [spliceAll_length, List.length_map, List.length_take, List.length_append, hans]
      simp only [List.length_nil]
      omega

/-- Witness for the amended claim C4 at a concrete failing input:
`max_size = 1` with two `add_symbol` injections fails. -/
theorem claim4_size_cap_witness :
    finalizeVocab [] 0 1 [("b".data, 0), ("c".data, 1)] [] =
      .error "vocabulary_size is too small" :=
  (claim4_size_cap [] 0 1 [("b".data, 0), ("c".data, 1)] [] (by decide)).1.mpr (by decide)

/-! ### Claim C8: OOV rate -/

/-- Claim C8 (confirmed): whenever the stream has any occurrences, the
reported OOV percentage is
`(total_occurrences - occurrences_with_known_count) / total_occurrences`
(times 100); entries with `count = None` (injected symbols) contribute
nothing to the in-vocabulary sum; and on the spec's example — counts
a:5, b:3, c:2 with a final vocabulary retaining only `a` and `b`
(cutoff 2 drops `c`) — the rate is `2/10`, i.e. 20 percent. -/
theorem claim8_oov_rate :
    (∀ (counter : List (Str × Nat)) (vocab : List Entry), totalCount counter ≠ 0 →
      oovRatePercent counter vocab =
        .ok (((totalCount counter : ℚ) - (invocabCount vocab : ℚ)) /
          (totalCount counter : ℚ) * 100)) ∧
    (∀ (v1 v2 : List Entry) (s : Str),
      invocabCount (v1 ++ (s, none) :: v2) = invocabCount (v1 ++ v2)) ∧
    (finalizeVocab [("a".data, 5), ("b".data, 3), ("c".data, 2)] 2 0 [] [] =
      .ok [("a".data, some 5), ("b".data, some 3)]) ∧
    (oovRatePercent [("a".data, 5), ("b".data, 3), ("c".data, 2)]
      [("a".data, some 5), ("b".data, some 3)] = .ok 20) ∧
    ((2 : ℚ) / 10 * 100 = 20) := by
  refine ⟨?_, ?_, by decide, ?_, by norm_num⟩
  · intro counter vocab h
    rw [oovRatePercent, pyDiv, if_neg (by exact_mod_cast h)]
    rfl
  · intro v1 v2 s
    simp [invocabCount, List.filterMap_append, List.filterMap_cons]
  · norm_num [oovRatePercent, totalCount, invocabCount, pyDiv, Except.map,
      List.filterMap_cons, List.filterMap_nil]

/-- Witness for claim C8's quantified part at a concrete input with a
nonzero total. -/
theorem claim8_oov_rate_witness :
    oovRatePercent [("a".data, 4)] [("a".data, some 3)] =
      .ok ((((totalCount [("a".data, 4)] : ℚ)) - (invocabCount [("a".data, some 3)] : ℚ)) /
        (totalCount [("a".data, 4)] : ℚ) * 100) :=
  claim8_oov_rate.1 [("a".data, 4)] [("a".data, some 3)] (by decide)

/-! ### Claim C10: unguarded division by zero -/

/-- Claim C10 (confirmed): the OOV logging divides by the stream's total
occurrence count with no guard.  Whenever the corpus yields zero
occurrences for a stream (and the size cap does not reject the
configuration first), the vocabulary finalization succeeds — the lists
are produced and written — and the subsequent rate computation fails
with `ZeroDivisionError` instead of completing or reporting a defined
rate. -/
theorem claim10_oov_divzero (counter : List (Str × Nat)) (cutoff vsize : Int)
    (as ans : List (Str × Int)) (h0 : totalCount counter = 0)
    (hcap : ¬(0 < vsize ∧ vsize < (as.length : Int))) :
    (∀ vocab : List Entry, oovRatePercent counter vocab = .error "ZeroDivisionError") ∧
    ∃ v, finalizeVocab counter cutoff vsize as ans = .ok v ∧
      oovRatePercent counter v = .error "ZeroDivisionError" := by
  have hrate : ∀ vocab : List Entry,
      oovRatePercent counter vocab = .error "ZeroDivisionError" := by
    intro vocab
    rw [oovRatePercent, pyDiv, if_pos (by rw [h0]; norm_num)]
    rfl
  have hcapok : ∃ w, capVocab vsize as.length (rankVocab counter cutoff) = .ok w := by
    rw [capVocab]
    by_cases h1 : 0 < vsize
    · rw [if_pos h1, if_neg (fun h2 => hcap ⟨h1, h2⟩)]
      exact ⟨_, rfl⟩
    · rw [if_neg h1]
      exact ⟨_, rfl⟩
  obtain ⟨w, hw⟩ := hcapok
  refine ⟨hrate, ⟨spliceAll (w.map (fun wc => (wc.1, some wc.2))) (as ++ ans), ?_, hrate _⟩⟩
  rw [finalizeVocab, hw]
  rfl

/-- Witness for claim C10 with an empty corpus and default settings. -/
theorem claim10_oov_divzero_witness :
    (∀ vocab : List Entry, oovRatePercent [] vocab = .error "ZeroDivisionError") ∧
    ∃ v, finalizeVocab [] 0 0 [] [] = .ok v ∧
      oovRatePercent [] v = .error "ZeroDivisionError" :=
  claim10_oov_divzero [] 0 0 [] [] (by decide) (by decide)

/-! ### Round-trip lemmas for split / slice / join -/

/-- Fields produced by whitespace splitting are nonempty and contain no
whitespace. -/
theorem splitWs_fields {s w : Str} (h : w ∈ splitWs s) :
    w ≠ [] ∧ ∀ c ∈ w, isPySpace c = false := by
  rw [splitWs, List.mem_filter] at h
  refine ⟨by simpa using h.2, mem_splitOnP_false s w h.1⟩

/-- Slicing keeps only elements of the original list. -/
theorem pySliceList_subset (sl : PySlice) (xs : List α) :
    pySliceList sl xs ⊆ xs := by
  rw [pySliceList]
  exact (List.drop_subset _ _).trans (List.take_subset _ _)

/-- Whitespace splitting is a left inverse of space-joining on lists of
nonempty whitespace-free fields. -/
theorem splitWs_intercalate :
    ∀ (ws : List Str), (∀ w ∈ ws, w ≠ []) → (∀ w ∈ ws, ∀ c ∈ w, isPySpace c = false) →
      splitWs (List.intercalate [' '] ws) = ws := by
  intro ws
  induction ws with
  | nil => intro _ _; decide
  | cons w t ih =>
    intro hne hsp
    cases t with
    | nil =>
      have h1 : List.intercalate [' '] [w] = w := by
        simp [List.intercalate]
      rw [h1, splitWs,
        List.splitOnP_eq_single _ _ (fun c hc => by simp [hsp w (by simp) c hc])]
      simp [hne w (by simp)]
    | cons w' t' =>
      have h1 : List.intercalate [' '] (w :: w' :: t') =
          w ++ ' ' :: List.intercalate [' '] (w' :: t') := by
        simp only [List.intercalate, List.intersperse_cons_cons]
        simp
      rw [h1, splitWs,
        List.splitOnP_first _ w (fun c hc => by simp [hsp w (by simp) c hc]) ' '
          (by decide) _]
      rw [List.filter_cons_of_pos (by simpa using hne w (by simp))]
      have ih' := ih (fun x hx => hne x (List.mem_cons_of_mem _ hx))
        (fun x hx => hsp x (List.mem_cons_of_mem _ hx))
      rw [splitWs] at ih'
      rw [ih']

/-! ### Claim C9: split / slice / join round trip -/

/-- Claim C9 (counterexample): with delimiter `","` and a field range
selecting nothing (here `2-` on a one-field line), the sliced field list
is `[]`; rejoining gives the empty string, and re-splitting the empty
string with an explicit delimiter yields `[""]`, not `[]`. -/
theorem claim9_counterexample :
    pySplit (some ',') (pyJoin (some ',')
      (pySliceList ⟨some 1, none⟩ (pySplit (some ',') "a".data))) ≠
    pySliceList ⟨some 1, none⟩ (pySplit (some ',') "a".data) := by
  decide

/-- Claim C9 (amended): splitting a line, slicing the field list, joining
with the same delimiter and re-splitting reproduces the sliced field list
— unconditionally for the `None` (arbitrary whitespace) delimiter, and
for an explicit delimiter whenever the sliced list is nonempty (an empty
slice rejoins to the empty string, which re-splits to one empty field). -/
theorem claim9_roundtrip :
    (∀ (line : Str) (sl : PySlice),
      pySplit none (pyJoin none (pySliceList sl (pySplit none line))) =
        pySliceList sl (pySplit none line)) ∧
    (∀ (d : Char) (line : Str) (sl : PySlice),
      pySliceList sl (pySplit (some d) line) ≠ [] →
      pySplit (some d) (pyJoin (some d) (pySliceList sl (pySplit (some d) line))) =
        pySliceList sl (pySplit (some d) line)) := by
  constructor
  · intro line sl
    show splitWs (List.intercalate [' '] (pySliceList sl (splitWs line))) =
      pySliceList sl (splitWs line)
    have hsub := pySliceList_subset sl (splitWs line)
    exact splitWs_intercalate _
      (fun w hw => (splitWs_fields (hsub hw)).1)
      (fun w hw => (splitWs_fields (hsub hw)).2)
  · intro d line sl hne
    show (List.intercalate [d] (pySliceList sl (line.splitOn d))).splitOn d =
      pySliceList sl (line.splitOn d)
    have hsub := pySliceList_subset sl (line.splitOn d)
    refine List.splitOn_intercalate _ d (fun w hw => ?_) hne
    intro hcd
    have := mem_splitOnP_false line w (by simpa [List.splitOn] using hsub hw) d hcd
    simp at this

/-- Witness for the amended claim C9 at a concrete input with an explicit
delimiter and a nonempty slice. -/
theorem claim9_roundtrip_witness :
    pySplit (some ',') (pyJoin (some ',')
      (pySliceList ⟨some 1, none⟩ (pySplit (some ',') "a,b".data))) =
      pySliceList ⟨some 1, none⟩ (pySplit (some ',') "a,b".data) :=
  claim9_roundtrip.2 ',' "a,b".data ⟨some 1, none⟩ (by decide)

/-! ### Decimal representations, for quantified field-string claims -/

/-- Facts about a decimal digit character. -/
theorem digitChar_facts (d : Nat) (hd : d < 10) :
    (Char.ofNat (48 + d)).isDigit = true ∧
    isPySpace (Char.ofNat (48 + d)) = false ∧
    (Char.ofNat (48 + d)).toNat = 48 + d ∧
    Char.ofNat (48 + d) ≠ '-' ∧
    Char.ofNat (48 + d) ≠ '+' := by
  interval_cases d <;> exact ⟨by decide, by decide, by decide, by decide, by decide⟩

/-- Every character of a decimal representation is a digit, is not
whitespace, and is not a sign. -/
theorem natToChars_facts (n : Nat) :
    ∀ c ∈ natToChars n, c.isDigit = true ∧ isPySpace c = false ∧ c ≠ '-' ∧ c ≠ '+' := by
  intro c hc
  rw [natToChars] at hc
  obtain ⟨d, hd, rfl⟩ := List.mem_map.mp hc
  have hd10 : d < 10 := Nat.digits_lt_base (by norm_num) (List.mem_reverse.mp hd)
  obtain ⟨h1, h2, _, h4, h5⟩ := digitChar_facts d hd10
  exact ⟨h1, h2, h4, h5⟩

/-- `dropWhile` is the identity when no element satisfies the predicate. -/
theorem dropWhile_all_false {p : Char → Bool} (l : Str) (h : ∀ c ∈ l, p c = false) :
    l.dropWhile p = l := by
  cases l with
  | nil => rfl
  | cons a t =>
    rw [List.dropWhile_cons, h a (List.mem_cons_self a t)]
    simp

/-- Stripping a string with no whitespace is the identity. -/
theorem pyStrip_id {s : Str} (h : ∀ c ∈ s, isPySpace c = false) : pyStrip s = s := by
  rw [pyStrip, dropWhile_all_false s h,
    dropWhile_all_false _ (fun c hc => h c (List.mem_reverse.mp hc)), List.reverse_reverse]

/-- Folding base-10 accumulation over the reversed little-endian digit
list recovers `Nat.ofDigits`. -/
theorem foldl_base10_reverse :
    ∀ (l : List Nat), List.foldl (fun a d => 10 * a + d) 0 l.reverse = Nat.ofDigits 10 l := by
  intro l
  induction l with
  | nil => rfl
  | cons x xs ih =>
    rw [List.reverse_cons, List.foldl_append, ih, Nat.ofDigits_cons]
    simp only [List.foldl_cons, List.foldl_nil]
    omega

/-- The decimal representation of a positive number parses back to it. -/
theorem parseDigits_natToChars (n : Nat) (hn : 1 ≤ n) :
    parseDigits (natToChars n) = some n := by
  have hne : natToChars n ≠ [] := by
    rw [natToChars]
    simp only [ne_eq, List.map_eq_nil_iff, List.reverse_eq_nil_iff]
    exact Nat.digits_ne_nil_iff_ne_zero.mpr (by omega)
  rw [parseDigits, if_neg hne,
    if_pos (List.all_eq_true.mpr (fun c hc => (natToChars_facts n c hc).1))]
  congr 1
  rw [natToChars, List.foldl_map]
  rw [List.foldl_ext (fun a c => 10 * a + (((fun d => Char.ofNat (48 + d)) c).toNat - 48))
    (fun a d => 10 * a + d) 0
    (fun a d hd => by
      have hd10 : d < 10 := Nat.digits_lt_base (by norm_num) (List.mem_reverse.mp hd)
      show 10 * a + ((Char.ofNat (48 + d)).toNat - 48) = 10 * a + d
      rw [(digitChar_facts d hd10).2.2.1]
      omega)]
  rw [foldl_base10_reverse, Nat.ofDigits_digits]

/-- Python `int()` of the decimal representation of a positive number. -/
theorem pyInt?_natToChars (n : Nat) (hn : 1 ≤ n) :
    pyInt? (natToChars n) = some (n : Int) := by
  have hfacts := natToChars_facts n
  have hns : pyStrip (natToChars n) = natToChars n :=
    pyStrip_id (fun c hc => (hfacts c hc).2.1)
  have hne : natToChars n ≠ [] := by
    intro h
    have h2 := parseDigits_natToChars n hn
    rw [h] at h2
    simp [parseDigits] at h2
  obtain ⟨c, rest, hcons⟩ := List.exists_cons_of_ne_nil hne
  have hc := hfacts c (by rw [hcons]; exact List.mem_cons_self _ _)
  unfold pyInt?
  rw [hns, hcons]
  show (if c = '-' then (parseDigits rest).map (fun n => -(n : Int))
    else if c = '+' then (parseDigits rest).map (fun n => (n : Int))
    else (parseDigits (c :: rest)).map (fun n => (n : Int))) = some (n : Int)
  rw [if_neg hc.2.2.1, if_neg hc.2.2.2, ← hcons, parseDigits_natToChars n hn]
  rfl

/-- The decimal representation of a positive number is nonempty. -/
theorem natToChars_ne_nil (n : Nat) (hn : 1 ≤ n) : natToChars n ≠ [] := by
  rw [natToChars]
  simp only [ne_eq, List.map_eq_nil_iff, List.reverse_eq_nil_iff]
  exact Nat.digits_ne_nil_iff_ne_zero.mpr (by omega)

/-- `splitFirst` splits at the first occurrence of the separator. -/
theorem splitFirst_append {c : Char} :
    ∀ (l1 l2 : Str), c ∉ l1 → splitFirst c (l1 ++ c :: l2) = (l1, l2) := by
  intro l1
  induction l1 with
  | nil =>
    intro l2 _
    simp [splitFirst]
  | cons x xs ih =>
    intro l2 h
    rw [List.cons_append, splitFirst,
      if_neg (ne_of_mem_of_not_mem (List.mem_cons_self x xs) h),
      ih l2 (fun hx => h (List.mem_cons_of_mem x hx))]

/-- Python slicing with nonnegative explicit bounds is `take` then
`drop`. -/
theorem pySliceList_nat (a b : Nat) (xs : List α) :
    pySliceList ⟨some (a : Int), some (b : Int)⟩ xs = (xs.take b).drop a := by
  rw [pySliceList]
  simp only [if_neg (show ¬(a : Int) < 0 by omega), if_neg (show ¬(b : Int) < 0 by omega),
    show ((a : Int)).toNat = a by omega, show ((b : Int)).toNat = b by omega]
  have h1 : xs.take (min b xs.length) = xs.take b := by
    by_cases hb : b ≤ xs.length
    · rw [min_eq_left hb]
    · rw [min_eq_right (by omega), List.take_length, List.take_of_length_le (by omega)]
  rw [h1]
  by_cases ha : a ≤ xs.length
  · rw [min_eq_left ha]
  · rw [min_eq_right (by omega), List.drop_eq_nil_of_le (by simp),
      List.drop_eq_nil_of_le (by simp only [List.length_take]; omega)]

/-- Python slicing with a nonnegative start and open stop is `drop`. -/
theorem pySliceList_nat_openStop (a : Nat) (xs : List α) :
    pySliceList ⟨some (a : Int), none⟩ xs = xs.drop a := by
  rw [pySliceList]
  simp only [if_neg (show ¬(a : Int) < 0 by omega), show ((a : Int)).toNat = a by omega]
  rw [List.take_length]
  by_cases ha : a ≤ xs.length
  · rw [min_eq_left ha]
  · rw [min_eq_right (by omega), List.drop_eq_nil_of_le (by omega),
      List.drop_eq_nil_of_le (by omega)]

/-- Python slicing with an open start and nonnegative stop is `take`. -/
theorem pySliceList_nat_openStart (b : Nat) (xs : List α) :
    pySliceList ⟨none, some (b : Int)⟩ xs = xs.take b := by
  rw [pySliceList]
  simp only [if_neg (show ¬(b : Int) < 0 by omega), show ((b : Int)).toNat = b by omega]
  rw [List.drop_zero]
  by_cases hb : b ≤ xs.length
  · rw [min_eq_left hb]
  · rw [min_eq_right (by omega), List.take_length, List.take_of_length_le (by omega)]

/-! ### Claim C7: dash-containing field strings -/

/-- Claim C7 (confirmed): for 1-based `N, M ≥ 1`, the dash shapes parse
to the documented 0-based half-open slices — `"N-"` to `(N-1, open)`,
`"N-M"` to `(N-1, M)` and `"-M"` to `(open, M)` — and applying those
slices to a field list keeps exactly the 0-based index range
`[N-1, M)` (i.e. 1-based columns `N..M` inclusive), the range from
column `N` to the end, and the first `M` columns, respectively. -/
theorem claim7_dash_ranges (N M : Nat) (hN : 1 ≤ N) (hM : 1 ≤ M) :
    (field2slice (natToChars N ++ ['-']) = .ok ⟨some ((N : Int) - 1), none⟩) ∧
    (field2slice (natToChars N ++ '-' :: natToChars M) =
      .ok ⟨some ((N : Int) - 1), some (M : Int)⟩) ∧
    (field2slice ('-' :: natToChars M) = .ok ⟨none, some (M : Int)⟩) ∧
    (∀ (α : Type) (xs : List α),
      pySliceList ⟨some ((N : Int) - 1), some (M : Int)⟩ xs = (xs.take M).drop (N - 1)) ∧
    (∀ (α : Type) (xs : List α),
      pySliceList ⟨some ((N : Int) - 1), none⟩ xs = xs.drop (N - 1)) ∧
    (∀ (α : Type) (xs : List α),
      pySliceList ⟨none, some (M : Int)⟩ xs = xs.take M) := by
  have hfN := natToChars_facts N
  have hfM := natToChars_facts M
  have hndN : '-' ∉ natToChars N := fun h => (hfN _ h).2.2.1 rfl
  have hspN : ∀ c ∈ natToChars N, isPySpace c = false := fun c hc => (hfN c hc).2.1
  have hspM : ∀ c ∈ natToChars M, isPySpace c = false := fun c hc => (hfM c hc).2.1
  have hneN := natToChars_ne_nil N hN
  have hneM := natToChars_ne_nil M hM
  have hN0 : ¬((N : Int) = 0) := by omega
  have hcast : ((N - 1 : Nat) : Int) = (N : Int) - 1 := by omega
  refine ⟨?_, ?_, ?_, ?_, ?_, ?_⟩
  · have hsp1 : ∀ c ∈ natToChars N ++ ['-'], isPySpace c = false := by
      intro c hc
      rcases List.mem_append.mp hc with h | h
      · exact hspN c h
      · rw [List.mem_singleton.mp h]
        decide
    have hmem : ('-' : Char) ∈ natToChars N ++ ['-'] := by simp
    simp only [field2slice, pyStrip_id hsp1, if_pos hmem,
      splitFirst_append (natToChars N) [] hndN, pyStrip_id hspN, if_neg hneN,
      pyInt?_natToChars N hN, if_neg hN0, show pyStrip ([] : Str) = [] from rfl, if_pos rfl]
    rfl
  · have hsp2 : ∀ c ∈ natToChars N ++ '-' :: natToChars M, isPySpace c = false := by
      intro c hc
      rcases List.mem_append.mp hc with h | h
      · exact hspN c h
      · rcases List.mem_cons.mp h with rfl | h'
        · decide
        · exact hspM c h'
    have hmem : ('-' : Char) ∈ natToChars N ++ '-' :: natToChars M := by simp
    simp only [field2slice, pyStrip_id hsp2, if_pos hmem,
      splitFirst_append (natToChars N) (natToChars M) hndN, pyStrip_id hspN, if_neg hneN,
      pyInt?_natToChars N hN, if_neg hN0, pyStrip_id hspM, if_neg hneM,
      pyInt?_natToChars M hM]
  · have hsp3 : ∀ c ∈ '-' :: natToChars M, isPySpace c = false := by
      intro c hc
      rcases List.mem_cons.mp hc with rfl | h'
      · decide
      · exact hspM c h'
    have hmem : ('-' : Char) ∈ '-' :: natToChars M := List.mem_cons_self _ _
    have hsf3 : splitFirst '-' ('-' :: natToChars M) = ([], natToChars M) := by
      rw [splitFirst]
      simp
    simp only [field2slice, pyStrip_id hsp3, if_pos hmem, hsf3,
      show pyStrip ([] : Str) = [] from rfl, if_pos rfl, pyStrip_id hspM, if_neg hneM,
      pyInt?_natToChars M hM]
    rfl
  · intro α xs
    rw [← hcast]
    exact pySliceList_nat (N - 1) M xs
  · intro α xs
    rw [← hcast]
    exact pySliceList_nat_openStop (N - 1) xs
  · intro α xs
    exact pySliceList_nat_openStart M xs

/-- Witness for claim C7 at `N = 2`, `M = 3`: the field string `"2-3"`
parses to `slice(1, 3)`. -/
theorem claim7_dash_ranges_witness :
    field2slice (natToChars 2 ++ '-' :: natToChars 3) = .ok ⟨some 1, some 3⟩ := by
  have h := (claim7_dash_ranges 2 3 (by norm_num) (by norm_num)).2.1
  norm_num at h
  exact h
